import Mathlib

/-!
Verification of the battery-age monitoring script (`battery_age/age.py`).

The script is a half-second polling loop: three debounced charge-cycle
signals (begin / complete / abort) are edge-detected, at most one event is
honored per tick through an if/elif chain, a two-state monitor (idle /
monitoring) gates 30-second voltage sampling, and a capacity estimator
extrapolates total capacity from the collected voltage series.

Real arithmetic is modelled with `ℚ`; Python's `ZeroDivisionError` and a
failing sensor read are modelled with `Except`, propagating like uncaught
exceptions.
-/

namespace BatteryAge

/-- Resistance of the fixed battery load in ohms (`load_resistance = 15`). -/
def load_resistance : ℚ := 15

/-- Sampling cadence (`samples_per_minute = 2`, one sample every 30 s). -/
def samples_per_minute : ℚ := 2

/-- Unit constant (`minutes_per_hour = 60`). -/
def minutes_per_hour : ℚ := 60

/-- Unit constant (`milliamps_per_amp = 1000`). -/
def milliamps_per_amp : ℚ := 1000

/-- Runtime faults the script can hit, by site: the `i_avg = i_sum / samples`
division on an empty series, the `ratio` division when the first and last
samples coincide (both `ZeroDivisionError` in Python), and a failing
voltage-sensor read. Each propagates as an uncaught exception. -/
inductive PyErr where
  | div_by_zero_samples : PyErr
  | div_by_zero_ratio : PyErr
  | sensor_fail : PyErr
deriving DecidableEq

/-- `get_volts`: converts a raw A2D reading into battery volts, undoing the
resistor divider (lines 77-86 of `age.py`). -/
def get_volts (raw : ℕ) : ℚ :=
  let a2d_analog_max : ℚ := 3.3
  let a2d_digital_max : ℚ := 65536
  let resistor_divider_ratio : ℚ := 0.684
  let ad_volt := ((raw : ℚ) * a2d_analog_max) / a2d_digital_max
  ad_volt / resistor_divider_ratio

/-- `adjusted_cutoff`: linear cutoff-voltage model `-0.449 * i + 3.323`
(lines 90-96 of `age.py`). -/
def adjusted_cutoff (load_current : ℚ) : ℚ :=
  let slope : ℚ := -0.449
  let intercept : ℚ := 3.323
  slope * load_current + intercept

/-- The quantities `estimate_capacity` computes and prints (lines 98-125 of
`age.py`), gathered into one record. -/
structure CapacityReport where
  samples : ℕ
  minutes : ℚ
  v_sum : ℚ
  i_sum : ℚ
  i_avg : ℚ
  energy_used : ℚ
  v_monitor_start : ℚ
  v_monitor_end : ℚ
  v_cutoff : ℚ
  ratio : ℚ
  energy_total : ℚ
deriving DecidableEq

/-- `estimate_capacity` (lines 98-125 of `age.py`), as a function of the
`voltage` series.  The two unguarded divisions are made explicit: Python
raises `ZeroDivisionError` at `i_avg = i_sum / samples` when the series is
empty, and at the `ratio` division when `voltage[0] == voltage[-1]`. -/
def estimate_capacity (voltage : List ℚ) : Except PyErr CapacityReport :=
  let samples := voltage.length
  let v_sum := voltage.sum
  let i_sum := v_sum / load_resistance
  if samples = 0 then
    .error .div_by_zero_samples
  else
    let i_avg := i_sum / (samples : ℚ)
    let energy_used := i_sum / samples_per_minute / minutes_per_hour
    let v_monitor_start := voltage.headD 0
    let v_monitor_end := voltage.getLastD 0
    let v_cutoff := adjusted_cutoff i_avg
    if v_monitor_start - v_monitor_end = 0 then
      .error .div_by_zero_ratio
    else
      let ratio := (v_monitor_start - v_cutoff) / (v_monitor_start - v_monitor_end)
      let energy_total := ratio * energy_used
      .ok { samples := samples, minutes := (samples : ℚ) / samples_per_minute,
            v_sum := v_sum, i_sum := i_sum, i_avg := i_avg,
            energy_used := energy_used, v_monitor_start := v_monitor_start,
            v_monitor_end := v_monitor_end, v_cutoff := v_cutoff,
            ratio := ratio, energy_total := energy_total }

/-- The lines the loop prints, abstracted: the "end monitoring" banner, the
multi-line capacity report, the two inconsistent-signal error lines, the
"begin monitoring" banner, and the per-sample line. -/
inductive Emit where
  | line_end_monitoring : Emit
  | report : CapacityReport → Emit
  | line_err_complete : Emit
  | line_err_abort : Emit
  | line_begin_monitoring : Emit
  | sample : ℚ → Emit
deriving DecidableEq

/-- The `handle state transitions` block (lines 148-174 of `age.py`): given
the current `monitoring` flag, the `voltage` series and the three edge
events of the tick, the nested if/elif chains yield the new flag, the new
series and the emitted lines — or a propagating exception out of
`estimate_capacity`. -/
def transition_step (monitoring : Bool) (voltage : List ℚ)
    (event_cb event_cc event_ca : Bool) :
    Except PyErr (Bool × List ℚ × List Emit) :=
  if monitoring then
    if event_cb then
      match estimate_capacity voltage with
      | .error e => .error e
      | .ok r => .ok (false, voltage, [.line_end_monitoring, .report r])
    else if event_cc then
      .ok (false, voltage, [.line_err_complete])
    else if event_ca then
      .ok (false, voltage, [.line_err_abort])
    else
      .ok (true, voltage, [])
  else
    if event_cb then
      .ok (false, voltage, [])
    else if event_cc then
      .ok (true, [], [.line_begin_monitoring])
    else if event_ca then
      .ok (false, voltage, [])
    else
      .ok (false, voltage, [])

/-- The arbitrated boundary events of the specification's data model. -/
inductive BoundaryEvent where
  | Begin : BoundaryEvent
  | Complete : BoundaryEvent
  | Abort : BoundaryEvent
deriving DecidableEq

/-- The Event Arbiter exactly as the specification words it (its section
4.2): select a single `BoundaryEvent` from the three edge-detector outputs
with fixed priority Begin > Complete > Abort, `none` when none fired.
Stated from the spec, to be compared with `transition_step`. -/
def arbitrate_spec (event_cb event_cc event_ca : Bool) : Option BoundaryEvent :=
  if event_cb then some .Begin
  else if event_cc then some .Complete
  else if event_ca then some .Abort
  else none

/-- The Monitoring State Machine exactly as the specification's transition
table words it (its section 4.3), driven by one arbitrated event per tick.
Stated from the spec, to be compared with `transition_step`. -/
def sm_step_spec (monitoring : Bool) (voltage : List ℚ) :
    Option BoundaryEvent → Except PyErr (Bool × List ℚ × List Emit)
  | some .Begin =>
      if monitoring then
        match estimate_capacity voltage with
        | .error e => .error e
        | .ok r => .ok (false, voltage, [.line_end_monitoring, .report r])
      else
        .ok (false, voltage, [])
  | some .Complete =>
      if monitoring then
        .ok (false, voltage, [.line_err_complete])
      else
        .ok (true, [], [.line_begin_monitoring])
  | some .Abort =>
      if monitoring then
        .ok (false, voltage, [.line_err_abort])
      else
        .ok (false, voltage, [])
  | none => .ok (monitoring, voltage, [])

/-- The mutable globals of `age.py`: the three previous-button-state flags
(lines 61-63), the `monitoring` flag (line 66), the `voltage` series
(line 69) and the wrapping `half_sec` tick counter (line 75). -/
structure SysState where
  b_cb_down : Bool
  b_cc_down : Bool
  b_ca_down : Bool
  monitoring : Bool
  voltage : List ℚ
  half_sec : ℕ
deriving DecidableEq

/-- One tick's reads from the outside world: the three raw digital levels
(`s_charge_begin.value` etc., `true` = not pressed = not asserted) and the
raw A2D sensor reading, `Except.error` when the read fails. -/
structure TickInput where
  cb_level : Bool
  cc_level : Bool
  ca_level : Bool
  sense : Except PyErr ℕ

/-- One iteration of the main loop (lines 127-180 of `age.py`): advance and
wrap the counter, edge-detect the three signals, update the button-state
flags, run the transition block, then — every thirtieth second while
monitoring — read the sensor and append a sample.  An exception anywhere
aborts the iteration (and in Python the whole process). -/
def tick (s : SysState) (inp : TickInput) : Except PyErr (SysState × List Emit) :=
  let hs1 := s.half_sec + 1
  let hs2 := if hs1 = 60 then 0 else hs1
  let event_cb := s.b_cb_down && inp.cb_level
  let event_cc := s.b_cc_down && inp.cc_level
  let event_ca := s.b_ca_down && inp.ca_level
  let nb_cb := !inp.cb_level
  let nb_cc := !inp.cc_level
  let nb_ca := !inp.ca_level
  match transition_step s.monitoring s.voltage event_cb event_cc event_ca with
  | .error e => .error e
  | .ok (m2, v2, out) =>
      if m2 = true ∧ hs2 = 0 then
        match inp.sense with
        | .error e => .error e
        | .ok raw =>
            let v_now := get_volts raw
            .ok ({ b_cb_down := nb_cb, b_cc_down := nb_cc, b_ca_down := nb_ca,
                   monitoring := m2, voltage := v2 ++ [v_now], half_sec := hs2 },
                 out ++ [.sample v_now])
      else
        .ok ({ b_cb_down := nb_cb, b_cc_down := nb_cc, b_ca_down := nb_ca,
               monitoring := m2, voltage := v2, half_sec := hs2 },
             out)

/-- The one-shot release-edge detector run over a whole level sequence from
a given previous-button-state flag: each tick computes
`event := down && level` and stores `down := !level`
(lines 133-146 of `age.py`). -/
def edge_run : Bool → List Bool → List Bool
  | _, [] => []
  | down, l :: ls => (down && l) :: edge_run (!l) ls

/-- A non-empty series whose first and last entries differ makes every
division in `estimate_capacity` well-defined, so the estimator returns a
report. -/
theorem estimate_capacity_isOk (v : List ℚ) (h1 : v ≠ [])
    (h2 : v.headD 0 ≠ v.getLastD 0) :
    ∃ r, estimate_capacity v = Except.ok r := by
  have hl : ¬v.length = 0 := by simpa using h1
  have hd : ¬v.headD 0 - v.getLastD 0 = 0 := sub_ne_zero_of_ne h2
  simp only [estimate_capacity]
  rw [if_neg hl, if_neg hd]
  exact ⟨_, rfl⟩

/-- Whenever the transition block completes normally, the series is either
untouched or freshly cleared on the way into monitoring, and none of its
emitted lines is a voltage sample. -/
theorem transition_step_ok_shape (m : Bool) (v : List ℚ) (e1 e2 e3 : Bool)
    (m2 : Bool) (v2 : List ℚ) (out : List Emit)
    (h : transition_step m v e1 e2 e3 = Except.ok (m2, v2, out)) :
    (v2 = v ∨ (v2 = [] ∧ m2 = true)) ∧ ∀ x : ℚ, Emit.sample x ∉ out := by
  unfold transition_step at h
  repeat' split at h
  all_goals
    first
      | · simp only [Except.ok.injEq, Prod.mk.injEq] at h
          obtain ⟨h1, h2, h3⟩ := h
          subst h1
          subst h2
          subst h3
          simp
      | simp at h

/-- C1 (amended): per-tick transitions of the monitoring block: an
arbitrated Complete event in Idle clears the series to empty and moves to
Monitoring; an arbitrated Begin event in Monitoring whose series is
non-empty with differing first and last samples produces exactly one
capacity report and moves to Idle; an arbitrated Abort event in Monitoring
produces zero reports, exactly one error line, and moves to Idle.  (The
as-stated claim promised a report for every non-empty series; a flat
series instead raises, see `transition_begin_flat_series_raises`.) -/
theorem transition_actions :
    (∀ (v : List ℚ) (e3 : Bool),
        transition_step false v false true e3 =
          .ok (true, [], [Emit.line_begin_monitoring])) ∧
    (∀ (v : List ℚ) (e2 e3 : Bool), v ≠ [] → v.headD 0 ≠ v.getLastD 0 →
        ∃ r, transition_step true v true e2 e3 =
          .ok (false, v, [Emit.line_end_monitoring, Emit.report r])) ∧
    (∀ v : List ℚ,
        transition_step true v false false true =
          .ok (false, v, [Emit.line_err_abort])) := by
  refine ⟨fun v e3 => rfl, fun v e2 e3 h1 h2 => ?_, fun v => rfl⟩
  obtain ⟨r, hr⟩ := estimate_capacity_isOk v h1 h2
  exact ⟨r, by simp [transition_step, hr]⟩

/-- Witness for `transition_actions` at the concrete series [4, 3]. -/
theorem transition_actions_witness :
    ∃ r, transition_step true [(4 : ℚ), 3] true false false =
      .ok (false, [(4 : ℚ), 3], [Emit.line_end_monitoring, Emit.report r]) :=
  transition_actions.2.1 [4, 3] false false (by decide) (by decide)

/-- C1 as stated fails on the code: a Begin event arbitrated in Monitoring
over the non-empty (flat) series [7, 7] raises `ZeroDivisionError` from
the ratio division instead of producing a report and moving to Idle. -/
theorem transition_begin_flat_series_raises :
    transition_step true [(7 : ℚ), 7] true false false =
      .error PyErr.div_by_zero_ratio ∧
    (transition_step true [(7 : ℚ), 7] true false false).toOption = none := by
  have h : transition_step true [(7 : ℚ), 7] true false false =
      .error PyErr.div_by_zero_ratio := by
    norm_num [transition_step, estimate_capacity]
  exact ⟨h, by rw [h]; rfl⟩

/-- The exact rational values `estimate_capacity` computes on the series
[3.3, 3.0] with `load_resistance = 15` and `samples_per_minute = 2`. -/
def report_33_30 : CapacityReport where
  samples := 2
  minutes := 1
  v_sum := 6.3
  i_sum := 0.42
  i_avg := 0.21
  energy_used := 0.0035
  v_monitor_start := 3.3
  v_monitor_end := 3
  v_cutoff := 3.22871
  ratio := 7129 / 30000
  energy_total := 49903 / 60000000

/-- C2: numeric round trip on the series [3.3, 3.0]: `v_sum = 6.3`,
`i_sum = 0.42`, `i_avg = 0.21`, `charge_used = 0.0035` Ah exactly, and
`v_cutoff`, `ratio` and `total_capacity` within far better than three
significant figures of the quoted 3.2287, 0.2376 and 0.000832 Ah. -/
theorem estimate_example_series :
    ∃ r, estimate_capacity [3.3, 3.0] = .ok r ∧
      r.v_sum = 6.3 ∧ r.i_sum = 0.42 ∧ r.i_avg = 0.21 ∧
      r.energy_used = 0.0035 ∧
      |r.v_cutoff - 3.2287| < 0.0001 ∧
      |r.ratio - 0.2376| < 0.0001 ∧
      |r.energy_total - 0.000832| < 0.000001 := by
  have h : estimate_capacity [3.3, 3.0] = .ok report_33_30 := by
    norm_num [estimate_capacity, load_resistance, samples_per_minute,
      minutes_per_hour, adjusted_cutoff, report_33_30, CapacityReport.mk.injEq]
  refine ⟨report_33_30, h, ?_, ?_, ?_, ?_, ?_, ?_, ?_⟩ <;>
    norm_num [report_33_30, abs_lt]

/-- C3 is what the specification demands, but the code violates it: on the
flat series [3.0, 3.0] `estimate_capacity` raises `ZeroDivisionError`
from the ratio division — no "indeterminate cutoff ratio" report exists in
the code — and the exception propagates out of the transition block, so
the move to Idle never happens. -/
theorem flat_series_raises :
    estimate_capacity [3.0, 3.0] = .error PyErr.div_by_zero_ratio ∧
    transition_step true [3.0, 3.0] true false false =
      .error PyErr.div_by_zero_ratio := by
  have h : estimate_capacity [3.0, 3.0] = .error PyErr.div_by_zero_ratio := by
    norm_num [estimate_capacity]
  exact ⟨h, by simp [transition_step, h]⟩

/-- C4 is what the specification demands, but the code violates it: a Begin
event arbitrated in Monitoring with an empty series does not skip
estimation — `estimate_capacity` is entered and raises `ZeroDivisionError`
at `i_avg = i_sum / samples`; there is no "no samples collected" notice
and the iteration aborts before reaching Idle. -/
theorem empty_series_raises :
    estimate_capacity [] = .error PyErr.div_by_zero_samples ∧
    transition_step true [] true false false =
      .error PyErr.div_by_zero_samples ∧
    (transition_step true [] true false false).toOption = none :=
  ⟨rfl, rfl, rfl⟩

/-- C10: every series of length exactly one has `voltage[0] = voltage[-1]`,
so the ratio denominator is zero and `estimate_capacity` hits the
degenerate ratio division regardless of the measured voltage. -/
theorem singleton_series_degenerate (v : ℚ) :
    estimate_capacity [v] = .error PyErr.div_by_zero_ratio := by
  simp [estimate_capacity]

/-- C6: the transition block honors at most one boundary event per tick and
coincides, for every state, series and combination of simultaneous edge
outputs, with the specification's two-stage design (arbitrate with fixed
priority Begin > Complete > Abort, then apply the transition table); in
particular Begin and Complete together yield Begin, Complete and Abort
together yield Complete, and no fired edge yields no event. -/
theorem arbitration_priority :
    (∀ (m : Bool) (v : List ℚ) (cb cc ca : Bool),
        transition_step m v cb cc ca = sm_step_spec m v (arbitrate_spec cb cc ca)) ∧
    arbitrate_spec true true false = some BoundaryEvent.Begin ∧
    arbitrate_spec true false true = some BoundaryEvent.Begin ∧
    arbitrate_spec true true true = some BoundaryEvent.Begin ∧
    arbitrate_spec false true true = some BoundaryEvent.Complete ∧
    arbitrate_spec false false true = some BoundaryEvent.Abort ∧
    arbitrate_spec false false false = none := by
  refine ⟨?_, rfl, rfl, rfl, rfl, rfl, rfl⟩
  intro m v cb cc ca
  cases m <;> cases cb <;> cases cc <;> cases ca <;> rfl

/-- Tick `i` of the detector output equals "was down on the previous tick
and the level is now high", where the stored flag starts as `d` and is
refreshed to the negated level each tick. -/
theorem edge_run_getD (d : Bool) (ls : List Bool) (i : ℕ) (h : i < ls.length) :
    (edge_run d ls).getD i false =
      ((if i = 0 then d else !(ls.getD (i - 1) true)) && ls.getD i true) := by
  induction ls generalizing d i with
  | nil => simp at h
  | cons l ls ih =>
    cases i with
    | zero => simp [edge_run]
    | succ j =>
      have hj : j < ls.length := Nat.lt_of_succ_lt_succ h
      have hrec := ih (!l) j hj
      cases j with
      | zero => simpa [edge_run] using hrec
      | succ k => simpa [edge_run] using hrec

/-- C5: fed a raw level sequence tick by tick (a level of `false` is
"asserted", by the active-low wiring), the detector with its initial
released flag outputs `true` exactly on the ticks where the previous level
was asserted and the current one is not — never on the first tick, on
repeated asserted levels, or on repeated not-asserted levels. -/
theorem edge_detector_release_only (ls : List Bool) (i : ℕ) (h : i < ls.length) :
    (edge_run false ls).getD i false = true ↔
      (0 < i ∧ ls.getD (i - 1) true = false ∧ ls.getD i true = true) := by
  rw [edge_run_getD false ls i h]
  cases i with
  | zero => simp
  | succ j =>
      cases hp : ls.getD j true <;> cases hc : ls.getD (j + 1) true <;>
        simp [hp, hc]

/-- Witness for `edge_detector_release_only` on the specification's own
example: levels [asserted, asserted, not-asserted, not-asserted] give a
release event exactly at tick 2. -/
theorem edge_detector_release_only_witness :
    (edge_run false [false, false, true, true]).getD 2 false = true :=
  (edge_detector_release_only [false, false, true, true] 2 (by decide)).mpr
    (by decide)

/-- C7: a tick that ends with the machine in Idle appends no voltage sample
and leaves the series untouched, and any tick that does emit a sample is
one whose post-transition state is Monitoring with the wrapping counter at
zero — sampling is gated by the monitoring flag and the 30-second
boundary. -/
theorem sampling_gated_by_monitoring (s : SysState) (inp : TickInput)
    (s2 : SysState) (out : List Emit) (h : tick s inp = .ok (s2, out)) :
    (s2.monitoring = false →
        s2.voltage = s.voltage ∧ ∀ x : ℚ, Emit.sample x ∉ out) ∧
    (∀ x : ℚ, Emit.sample x ∈ out → s2.monitoring = true ∧ s2.half_sec = 0) := by
  simp only [tick] at h
  rcases ht : transition_step s.monitoring s.voltage (s.b_cb_down && inp.cb_level)
      (s.b_cc_down && inp.cc_level) (s.b_ca_down && inp.ca_level) with e | p
  · rw [ht] at h
    simp at h
  · obtain ⟨m2, v2, out1⟩ := p
    have hshape := transition_step_ok_shape s.monitoring s.voltage
      (s.b_cb_down && inp.cb_level) (s.b_cc_down && inp.cc_level)
      (s.b_ca_down && inp.ca_level) m2 v2 out1 ht
    rw [ht] at h
    dsimp only at h
    by_cases hcond :
        m2 = true ∧ (if s.half_sec + 1 = 60 then 0 else s.half_sec + 1) = 0
    · rw [if_pos hcond] at h
      rcases hsen : inp.sense with e | raw
      · rw [hsen] at h
        simp at h
      · rw [hsen] at h
        simp only [Except.ok.injEq, Prod.mk.injEq] at h
        obtain ⟨hst, hout⟩ := h
        subst hst
        subst hout
        exact ⟨fun hmono => absurd hmono (by simp [hcond.1]),
          fun x hx => ⟨hcond.1, hcond.2⟩⟩
    · rw [if_neg hcond] at h
      simp only [Except.ok.injEq, Prod.mk.injEq] at h
      obtain ⟨hst, hout⟩ := h
      subst hst
      subst hout
      refine ⟨fun hmono => ?_, fun x hx => absurd hx (hshape.2 x)⟩
      rcases hshape.1 with hv | ⟨hv, hm⟩
      · exact ⟨hv, hshape.2⟩
      · have hm2 : m2 = false := hmono
        rw [hm] at hm2
        exact Bool.noConfusion hm2

/-- Witness for `sampling_gated_by_monitoring`: an idle tick with no events
keeps the empty series and emits nothing. -/
theorem sampling_gated_by_monitoring_witness :
    ((⟨true, true, true, false, [], 1⟩ : SysState).monitoring = false →
        (⟨true, true, true, false, [], 1⟩ : SysState).voltage =
          (⟨false, false, false, false, [], 0⟩ : SysState).voltage ∧
        ∀ x : ℚ, Emit.sample x ∉ ([] : List Emit)) ∧
    (∀ x : ℚ, Emit.sample x ∈ ([] : List Emit) →
        (⟨true, true, true, false, [], 1⟩ : SysState).monitoring = true ∧
        (⟨true, true, true, false, [], 1⟩ : SysState).half_sec = 0) :=
  sampling_gated_by_monitoring ⟨false, false, false, false, [], 0⟩
    ⟨false, false, false, .ok 0⟩ ⟨true, true, true, false, [], 1⟩ [] rfl

/-- C8 (amended): when the sensor read fails, no substitute value is ever
appended to the series and the core retries nothing; but if the tick
completes at all it is only because the sampling branch was not reached —
on a sampling tick the failure propagates as an uncaught exception that
terminates the loop (see `sensor_fail_terminates`) instead of processing
continuing with the next tick. -/
theorem sensor_fail_no_substitute (s : SysState) (inp : TickInput) (e : PyErr)
    (he : inp.sense = .error e) (s2 : SysState) (out : List Emit)
    (h : tick s inp = .ok (s2, out)) :
    (∀ x : ℚ, Emit.sample x ∉ out) ∧
    (s2.voltage = s.voltage ∨ s2.voltage = []) := by
  simp only [tick] at h
  rcases ht : transition_step s.monitoring s.voltage (s.b_cb_down && inp.cb_level)
      (s.b_cc_down && inp.cc_level) (s.b_ca_down && inp.ca_level) with e2 | p
  · rw [ht] at h
    simp at h
  · obtain ⟨m2, v2, out1⟩ := p
    have hshape := transition_step_ok_shape s.monitoring s.voltage
      (s.b_cb_down && inp.cb_level) (s.b_cc_down && inp.cc_level)
      (s.b_ca_down && inp.ca_level) m2 v2 out1 ht
    rw [ht] at h
    dsimp only at h
    by_cases hcond :
        m2 = true ∧ (if s.half_sec + 1 = 60 then 0 else s.half_sec + 1) = 0
    · rw [if_pos hcond, he] at h
      simp at h
    · rw [if_neg hcond] at h
      simp only [Except.ok.injEq, Prod.mk.injEq] at h
      obtain ⟨hst, hout⟩ := h
      subst hst
      subst hout
      refine ⟨hshape.2, ?_⟩
      rcases hshape.1 with hv | ⟨hv, hm⟩
      · exact Or.inl hv
      · exact Or.inr hv

/-- Witness for `sensor_fail_no_substitute`: a failed read on an idle,
non-sampling tick leaves the series alone and emits nothing. -/
theorem sensor_fail_no_substitute_witness :
    (∀ x : ℚ, Emit.sample x ∉ ([] : List Emit)) ∧
    ((⟨true, true, true, false, [], 6⟩ : SysState).voltage =
        (⟨false, false, false, false, [], 5⟩ : SysState).voltage ∨
      (⟨true, true, true, false, [], 6⟩ : SysState).voltage = []) :=
  sensor_fail_no_substitute ⟨false, false, false, false, [], 5⟩
    ⟨false, false, false, .error .sensor_fail⟩ PyErr.sensor_fail rfl
    ⟨true, true, true, false, [], 6⟩ [] rfl

/-- C8 as stated fails on the code: on a sampling tick (monitoring, counter
about to wrap) whose sensor read fails, the iteration does not complete
and continue — the failure propagates out of the loop body, so there is no
next state at all. -/
theorem sensor_fail_terminates :
    tick ⟨false, false, false, true, [3], 59⟩
        ⟨false, false, false, .error .sensor_fail⟩ =
      .error PyErr.sensor_fail ∧
    (tick ⟨false, false, false, true, [3], 59⟩
        ⟨false, false, false, .error .sensor_fail⟩).toOption = none :=
  ⟨rfl, rfl⟩

/-- C9: event handling precedes the sampling check inside one tick: if a
Complete event is arbitrated while Idle on a tick where the counter wraps
to zero, the freshly cleared series receives a voltage sample on that very
tick — the first sample of a monitoring cycle can land zero time units
after the Idle-to-Monitoring transition. -/
theorem sample_on_transition_tick (s : SysState) (inp : TickInput) (raw : ℕ)
    (hm : s.monitoring = false) (hh : s.half_sec = 59)
    (hcb : (s.b_cb_down && inp.cb_level) = false)
    (hcc : (s.b_cc_down && inp.cc_level) = true)
    (hsen : inp.sense = .ok raw) :
    tick s inp = .ok
      ({ b_cb_down := !inp.cb_level, b_cc_down := !inp.cc_level,
         b_ca_down := !inp.ca_level, monitoring := true,
         voltage := [get_volts raw], half_sec := 0 },
       [Emit.line_begin_monitoring, Emit.sample (get_volts raw)]) := by
  have hcb2 : ¬(s.b_cb_down = true ∧ inp.cb_level = true) := by
    intro hx
    rw [hx.1, hx.2] at hcb
    exact Bool.noConfusion hcb
  have hcc2 : s.b_cc_down = true ∧ inp.cc_level = true := by simpa using hcc
  simp [tick, hm, hh, hsen, transition_step, hcb2, hcc2.1, hcc2.2]

/-- Witness for `sample_on_transition_tick`: a concrete Complete release on
the wrap tick; the sample taken that tick is the sole element of the
series. -/
theorem sample_on_transition_tick_witness :
    tick ⟨false, true, false, false, [], 59⟩ ⟨false, true, false, .ok 0⟩ = .ok
      ({ b_cb_down := true, b_cc_down := false, b_ca_down := true,
         monitoring := true, voltage := [get_volts 0], half_sec := 0 },
       [Emit.line_begin_monitoring, Emit.sample (get_volts 0)]) :=
  sample_on_transition_tick ⟨false, true, false, false, [], 59⟩
    ⟨false, true, false, .ok 0⟩ 0 rfl rfl rfl rfl rfl

end BatteryAge
